import Mathlib

/-!
Verification development for a websocket pub/sub chat relay.

The program is a single Tornado websocket server backed by Redis.  Its
observable behaviour is embedded shallowly below:

* a JSON value type together with a serializer modelling the Python call
  json.dumps with its default options, namely ensure_ascii true and the
  default separators of comma-space and colon-space, restricted to the
  JSON fragment this program ever produces or consumes, namely strings,
  arrays and objects;
* a fuelled recursive-descent parser modelling the Python call json.loads
  on that same fragment; the model keeps all object members in order and
  rejects lone surrogate escapes, which the serializer never emits;
* the connection handler operations openConn, on_message, on_close and
  check_origin, the broadcast helper update_clients_list and the Redis
  listener loop redis_listener_step and redis_listener_run, each
  translated from the corresponding function of src/main.py.  Network
  sends are recorded as pairs of a connection and a payload string, and a
  possibly failing send is modelled by a predicate saying which
  connections accept a write; a raised exception is modelled as an error
  value that aborts the surrounding control flow exactly where the Python
  exception would propagate.
-/

/-- JSON values in the fragment used by the program: strings, arrays and
objects with ordered member lists. -/
inductive Json where
| str : String → Json
| arr : List Json → Json
| obj : List (String × Json) → Json

/-- Lower-case hexadecimal digit character for a value below 16. -/
def hexDig (n : Nat) : Char :=
if n < 10 then Char.ofNat (48 + n) else Char.ofNat (87 + n)

/-- Four-digit lower-case hexadecimal rendering of a code unit, as used by
the Python json escape for non-ASCII characters. -/
def hex4 (n : Nat) : List Char :=
[hexDig (n / 4096 % 16), hexDig (n / 256 % 16), hexDig (n / 16 % 16), hexDig (n % 16)]

/-- Tail of the escape sequence for a character that the Python json
serializer escapes, without the leading backslash. -/
def escTail (c : Char) : List Char :=
if c = '"' then ['"']
else if c = '\\' then ['\\']
else if c = '\x08' then ['b']
else if c = '\t' then ['t']
else if c = '\n' then ['n']
else if c = '\x0c' then ['f']
else if c = '\r' then ['r']
else if c.toNat < 65536 then 'u' :: hex4 c.toNat
else 'u' :: hex4 (55296 + (c.toNat - 65536) / 1024) ++ '\\' :: 'u' :: hex4 (56320 + (c.toNat - 65536) % 1024)

/-- Serialization of one character inside a JSON string literal, following
the Python json.dumps rule with ensure_ascii: printable ASCII other than
the quote and the backslash is kept verbatim, everything else is escaped. -/
def escChar (c : Char) : List Char :=
if 32 ≤ c.toNat ∧ c.toNat < 127 ∧ c ≠ '"' ∧ c ≠ '\\' then [c] else '\\' :: escTail c

/-- Serialization of the characters of a JSON string literal body. -/
def escList : List Char → List Char
| [] => []
| c :: cs => escChar c ++ escList cs

/-- Serialization of a JSON string literal including the quotes. -/
def dumpsStr (s : String) : List Char :=
'"' :: escList s.data ++ ['"']

mutual
/-- Serialization of a JSON value, modelling json.dumps with the default
separators. -/
def dumpsVal : Json → List Char
| .str s => dumpsStr s
| .arr xs => '\x5b' :: dumpsItemsD xs ++ ['\x5d']
| .obj kvs => '\x7b' :: dumpsMembersD kvs ++ ['\x7d']
/-- Serialization of the items of a JSON array, separated by comma-space. -/
def dumpsItemsD : List Json → List Char
| [] => []
| [x] => dumpsVal x
| x :: xs => dumpsVal x ++ ',' :: ' ' :: dumpsItemsD xs
/-- Serialization of the members of a JSON object, separated by
comma-space, with colon-space between key and value. -/
def dumpsMembersD : List (String × Json) → List Char
| [] => []
| [(k, v)] => dumpsStr k ++ ':' :: ' ' :: dumpsVal v
| (k, v) :: kvs => dumpsStr k ++ ':' :: ' ' :: dumpsVal v ++ ',' :: ' ' :: dumpsMembersD kvs
end

/-- Full serialization of a JSON value to a string, the model of the
Python expression json.dumps applied to the corresponding value. -/
def dumps (j : Json) : String := ⟨dumpsVal j⟩

/-- Numeric value of one hexadecimal digit character, accepting both
cases, as json.loads does. -/
def hexVal (c : Char) : Option Nat :=
if 48 ≤ c.toNat ∧ c.toNat ≤ 57 then some (c.toNat - 48)
else if 97 ≤ c.toNat ∧ c.toNat ≤ 102 then some (c.toNat - 87)
else if 65 ≤ c.toNat ∧ c.toNat ≤ 70 then some (c.toNat - 55)
else none

/-- Reading of exactly four hexadecimal digits from the input. -/
def parseHex4 : List Char → Option (Nat × List Char)
| a :: b :: c :: d :: rest =>
  match hexVal a, hexVal b, hexVal c, hexVal d with
  | some x, some y, some z, some w => some (4096 * x + 256 * y + 16 * z + w, rest)
  | _, _, _, _ => none
| _ => none

/-- Reading of one escape sequence body after the backslash inside a JSON
string literal, combining a high and a low surrogate escape into one
character; a lone surrogate escape is rejected, which json.dumps never
emits. -/
def parseEscape : List Char → Option (Char × List Char)
| [] => none
| e :: rest =>
  if e = '"' then some ('"', rest)
  else if e = '\\' then some ('\\', rest)
  else if e = '/' then some ('/', rest)
  else if e = 'b' then some ('\x08', rest)
  else if e = 'f' then some ('\x0c', rest)
  else if e = 'n' then some ('\n', rest)
  else if e = 'r' then some ('\r', rest)
  else if e = 't' then some ('\t', rest)
  else if e = 'u' then
    match parseHex4 rest with
    | some (n, rest2) =>
      if n < 55296 then some (Char.ofNat n, rest2)
      else if n < 56320 then
        match rest2 with
        | b1 :: b2 :: rest3 =>
          if b1 = '\\' ∧ b2 = 'u' then
            match parseHex4 rest3 with
            | some (m, rest4) =>
              if 56320 ≤ m ∧ m < 57344 then
                some (Char.ofNat (65536 + (n - 55296) * 1024 + (m - 56320)), rest4)
              else none
            | none => none
          else none
        | _ => none
      else if n < 57344 then none
      else some (Char.ofNat n, rest2)
    | none => none
  else none

/-- JSON whitespace test. -/
def isWs (c : Char) : Bool := c = ' ' ∨ c = '\t' ∨ c = '\n' ∨ c = '\r'

/-- Dropping of leading JSON whitespace. -/
def skipWs : List Char → List Char
| [] => []
| c :: rest => if isWs c then skipWs rest else c :: rest

mutual
/-- Fuelled parser for one JSON value of the fragment, modelling
json.loads; the fuel only bounds recursion and every run below is given
enough of it. -/
def parseValue : Nat → List Char → Option (Json × List Char)
| 0, _ => none
| fuel + 1, input =>
  match skipWs input with
  | [] => none
  | c :: rest =>
    if c = '"' then
      match parseStrBody fuel rest "" with
      | some (s, r) => some (Json.str s, r)
      | none => none
    else if c = '\x7b' then
      match skipWs rest with
      | [] => none
      | c2 :: r2 =>
        if c2 = '\x7d' then some (Json.obj [], r2)
        else
          match parseMembers fuel (c2 :: r2) with
          | some (kvs, r3) => some (Json.obj kvs, r3)
          | none => none
    else if c = '\x5b' then
      match skipWs rest with
      | [] => none
      | c2 :: r2 =>
        if c2 = '\x5d' then some (Json.arr [], r2)
        else
          match parseItems fuel (c2 :: r2) with
          | some (xs, r3) => some (Json.arr xs, r3)
          | none => none
    else none

/-- Fuelled parser for a non-empty JSON object member list up to and
including the closing brace. -/
def parseMembers : Nat → List Char → Option (List (String × Json) × List Char)
| 0, _ => none
| fuel + 1, input =>
  match skipWs input with
  | [] => none
  | c :: rest =>
    if c = '"' then
      match parseStrBody fuel rest "" with
      | some (k, r1) =>
        match skipWs r1 with
        | [] => none
        | c2 :: r2 =>
          if c2 = ':' then
            match parseValue fuel r2 with
            | some (v, r3) =>
              match skipWs r3 with
              | [] => none
              | c3 :: r4 =>
                if c3 = ',' then
                  match parseMembers fuel r4 with
                  | some (kvs, r5) => some ((k, v) :: kvs, r5)
                  | none => none
                else if c3 = '\x7d' then some ([(k, v)], r4)
                else none
            | none => none
          else none
      | none => none
    else none

/-- Fuelled parser for a non-empty JSON array item list up to and
including the closing bracket. -/
def parseItems : Nat → List Char → Option (List Json × List Char)
| 0, _ => none
| fuel + 1, input =>
  match parseValue fuel input with
  | some (v, r1) =>
    match skipWs r1 with
    | [] => none
    | c :: r2 =>
      if c = ',' then
        match parseItems fuel r2 with
        | some (vs, r3) => some (v :: vs, r3)
        | none => none
      else if c = '\x5d' then some ([v], r2)
      else none
  | none => none

/-- Fuelled parser for the body of a JSON string literal after the opening
quote, accumulating decoded characters; unescaped control characters are
rejected as in strict json.loads. -/
def parseStrBody : Nat → List Char → String → Option (String × List Char)
| 0, _, _ => none
| fuel + 1, input, acc =>
  match input with
  | [] => none
  | c :: rest =>
    if c = '"' then some (acc, rest)
    else if c = '\\' then
      match parseEscape rest with
      | some (ch, r2) => parseStrBody fuel r2 (acc.push ch)
      | none => none
    else if c.toNat < 32 then none
    else parseStrBody fuel rest (acc.push c)
end

/-- Full parse of a string as one JSON document followed only by
whitespace, the model of the Python expression json.loads; a result of
none models a raised json.JSONDecodeError. -/
def loads (s : String) : Option Json :=
  match parseValue (s.length + 1) s.data with
  | some (j, rest) => if skipWs rest = [] then some j else none
  | none => none

/-- One websocket connection: an opaque identity plus the username the
handler assigned to it on open, mirroring a WebSocketHandler instance
with its username attribute. -/
structure Conn where
  id : Nat
  username : String
deriving DecidableEq

/-- Shared state visible to one server process: the per-process in-memory
connection set WebSocketHandler.clients and the Redis set online_clients
of usernames; the Redis set is modelled as a duplicate-free list so that
the member order returned by smembers is concrete. -/
structure ServerState where
  clients : List Conn
  presence : List String

/-- Model of the Redis command sadd on the online_clients set: inserting a
member already present changes nothing. -/
def sadd (l : List String) (u : String) : List String :=
  if u ∈ l then l else l ++ [u]

/-- Model of the Redis command srem on the online_clients set: every
occurrence of the member is removed. -/
def srem (l : List String) (u : String) : List String :=
  l.filter (fun v => v ≠ u)

/-- Model of the Python set add on WebSocketHandler.clients. -/
def addClient (l : List Conn) (c : Conn) : List Conn :=
  if c ∈ l then l else l ++ [c]

/-- Model of the Python set remove on WebSocketHandler.clients for a
member known to be present; the caller checks membership and raises
otherwise. -/
def removeClient (l : List Conn) (c : Conn) : List Conn :=
  l.filter (fun v => v ≠ c)

/-- Username assignment at the top of WebSocketHandler.open: the requested
username when it is present and non-empty, otherwise the generated name
User- followed by the first eight characters of a fresh uuid4 string,
which is supplied here as an explicit argument. -/
def assignUsername (requested : Option String) (uuid : String) : String :=
  match requested with
  | none => "User-" ++ String.mk (uuid.data.take 8)
  | some u => if u = "" then "User-" ++ String.mk (uuid.data.take 8) else u

/-- Greeting text of the welcome message built in WebSocketHandler.open. -/
def greeting (u : String) : String :=
  "Добро пожаловать в чат, " ++ u ++ "!"

/-- Welcome envelope serialized exactly as WebSocketHandler.open does. -/
def welcomePayload (u : String) : String :=
  dumps (Json.obj [("type", Json.str "welcome"), ("message", Json.str (greeting u))])

/-- Roster envelope serialized exactly as update_clients_list does from
the list returned by smembers. -/
def rosterPayload (presence : List String) : String :=
  dumps (Json.obj [("type", Json.str "clients"), ("clients", Json.arr (presence.map Json.str))])

/-- Chat message envelope built by WebSocketHandler.on_message from the
sender username and the raw client payload. -/
def msgEnv (u msg : String) : Json :=
  Json.obj [("type", Json.str "message"), ("data", Json.obj [("sender", Json.str u), ("message", Json.str msg)])]

/-- Sequential network send to a list of connections, modelling a Python
for loop over write_message calls: sendOk says which connections accept a
write, a refused write raises, and the raise aborts the remaining
iterations; the result collects the successful sends and the error, if
any, that propagated. -/
def sendToAll (sendOk : Conn → Bool) : List Conn → String → List (Conn × String) × Option String
| [], _ => ([], none)
| c :: cs, p =>
  if sendOk c then
    ((c, p) :: (sendToAll sendOk cs p).1, (sendToAll sendOk cs p).2)
  else ([], some "WebSocketClosedError")

/-- Model of WebSocketHandler.update_clients_list: read the full presence
set, build the roster envelope, serialize once and send it to every
locally registered connection in turn. -/
def update_clients_list (sendOk : Conn → Bool) (clients : List Conn) (presence : List String) :
    List (Conn × String) × Option String :=
  sendToAll sendOk clients (rosterPayload presence)

/-- Model of WebSocketHandler.open: assign the username, add the
connection to the local set, add the username to the presence set,
broadcast the roster to all local connections, then send the welcome
message to the new connection only; an error from any send propagates
and skips the rest, but the state changes precede every send. -/
def openConn (sendOk : Conn → Bool) (st : ServerState) (cid : Nat)
    (requested : Option String) (uuid : String) :
    ServerState × List (Conn × String) × Option String :=
  let u := assignUsername requested uuid
  let c : Conn := ⟨cid, u⟩
  let clients2 := addClient st.clients c
  let presence2 := sadd st.presence u
  match update_clients_list sendOk clients2 presence2 with
  | (sends, some e) => (⟨clients2, presence2⟩, sends, some e)
  | (sends, none) =>
    if sendOk c then (⟨clients2, presence2⟩, sends ++ [(c, welcomePayload u)], none)
    else (⟨clients2, presence2⟩, sends, some "WebSocketClosedError")

/-- Model of WebSocketHandler.on_message: wrap the raw client payload in
the chat envelope with the sender username and publish its serialization
to the chat_channel topic; the first component is the list of publishes,
the second the list of direct local sends, which is empty. -/
def on_message (u msg : String) : List (String × String) × List (Conn × String) :=
  ([("chat_channel", dumps (msgEnv u msg))], [])

/-- Model of WebSocketHandler.on_close: the Python set remove raises
KeyError when the connection is absent, in which case nothing changes;
otherwise the connection is dropped, its username is removed from the
presence set and the roster is broadcast to the remaining connections. -/
def on_close (sendOk : Conn → Bool) (st : ServerState) (c : Conn) :
    ServerState × List (Conn × String) × Option String :=
  if c ∈ st.clients then
    let clients2 := removeClient st.clients c
    let presence2 := srem st.presence c.username
    match update_clients_list sendOk clients2 presence2 with
    | (sends, e) => (⟨clients2, presence2⟩, sends, e)
  else (st, [], some "KeyError")

/-- Model of WebSocketHandler.check_origin, which accepts every origin. -/
def check_origin (_origin : String) : Bool :=
  true

/-- One message received from the Redis pubsub subscription: the pubsub
message type field and the data field carrying the published payload. -/
structure BusMsg where
  type : String
  data : String

/-- One iteration of the redis_listener loop body: subscription control
messages are skipped; for a chat message the payload is parsed with
json.loads, a parse failure raises out of the loop, and otherwise the
re-serialized value is sent to every locally registered connection. -/
def redis_listener_step (sendOk : Conn → Bool) (clients : List Conn) (m : BusMsg) :
    List (Conn × String) × Option String :=
  if m.type = "message" then
    match loads m.data with
    | none => ([], some "JSONDecodeError")
    | some j => sendToAll sendOk clients (dumps j)
  else ([], none)

/-- Run of the redis_listener loop over a finite prefix of the
subscription stream: an error raised by any iteration terminates the loop
and no later message is processed. -/
def redis_listener_run (sendOk : Conn → Bool) (clients : List Conn) :
    List BusMsg → List (Conn × String) × Option String
| [] => ([], none)
| m :: ms =>
  match redis_listener_step sendOk clients m with
  | (s, none) =>
    match redis_listener_run sendOk clients ms with
    | (s2, e) => (s ++ s2, e)
  | (s, some e) => (s, some e)

/-- Hexadecimal digit characters decode back to their value. -/
theorem hexVal_hexDig (d : Nat) (h : d < 16) : hexVal (hexDig d) = some d := by
  interval_cases d <;> rfl

/-- Code points of characters avoid the surrogate range. -/
theorem char_range (c : Char) : c.toNat < 55296 ∨ (57344 ≤ c.toNat ∧ c.toNat < 1114112) := by
  have h := c.valid
  have he : c.toNat = c.val.toNat := rfl
  rw [he]
  rcases h with h | h
  · left; exact h
  · right; exact ⟨h.1, h.2⟩

/-- Four-digit hexadecimal renderings decode back to their value. -/
theorem parseHex4_hex4 (n : Nat) (h : n < 65536) (l : List Char) :
    parseHex4 (hex4 n ++ l) = some (n, l) := by
  have h1 : n / 4096 % 16 < 16 := Nat.mod_lt _ (by norm_num)
  have h2 : n / 256 % 16 < 16 := Nat.mod_lt _ (by norm_num)
  have h3 : n / 16 % 16 < 16 := Nat.mod_lt _ (by norm_num)
  have h4 : n % 16 < 16 := Nat.mod_lt _ (by norm_num)
  have harith : 4096 * (n / 4096 % 16) + 256 * (n / 256 % 16) + 16 * (n / 16 % 16) + n % 16 = n := by
    omega
  simp only [hex4, List.cons_append, List.nil_append, parseHex4,
    hexVal_hexDig _ h1, hexVal_hexDig _ h2, hexVal_hexDig _ h3, hexVal_hexDig _ h4, harith]

/-- Unicode escapes of non-surrogate code units decode to one character. -/
theorem parseEscape_u_single (n : Nat) (h : n < 65536) (hval : n < 55296 ∨ 57344 ≤ n) (l : List Char) :
    parseEscape ('u' :: hex4 n ++ l) = some (Char.ofNat n, l) := by
  rcases hval with hr | hr
  · simp only [List.cons_append, parseEscape, parseHex4_hex4 n h l]
    simp [hr]
  · have hn1 : ¬ n < 55296 := by omega
    have hn2 : ¬ n < 56320 := by omega
    have hn3 : ¬ n < 57344 := by omega
    simp only [List.cons_append, parseEscape, parseHex4_hex4 n h l]
    simp [hn1, hn2, hn3]

/-- Surrogate pair escapes decode to the combined character. -/
theorem parseEscape_u_pair (hi lo : Nat) (hhi1 : 55296 ≤ hi) (hhi2 : hi < 56320)
    (hlo1 : 56320 ≤ lo) (hlo2 : lo < 57344) (l : List Char) :
    parseEscape ('u' :: hex4 hi ++ '\\' :: 'u' :: hex4 lo ++ l)
      = some (Char.ofNat (65536 + (hi - 55296) * 1024 + (lo - 56320)), l) := by
  have hhi : hi < 65536 := by omega
  have hlo : lo < 65536 := by omega
  have hn1 : ¬ hi < 55296 := by omega
  simp only [List.cons_append, List.append_assoc, parseEscape, parseHex4_hex4 _ hhi,
    if_neg hn1, if_pos hhi2]
  simp only [List.cons_append, parseHex4_hex4 _ hlo]
  simp [hlo1, hlo2]

/-- Escape tails built by the serializer decode back to the escaped
character. -/
theorem parseEscape_escTail (c : Char) (l : List Char) :
    parseEscape (escTail c ++ l) = some (c, l) := by
  unfold escTail
  by_cases h1 : c = '"'
  · subst h1; simp [parseEscape]
  rw [if_neg h1]
  by_cases h2 : c = '\\'
  · subst h2; simp [parseEscape]
  rw [if_neg h2]
  by_cases h3 : c = '\x08'
  · subst h3; simp [parseEscape]
  rw [if_neg h3]
  by_cases h4 : c = '\t'
  · subst h4; simp [parseEscape]
  rw [if_neg h4]
  by_cases h5 : c = '\n'
  · subst h5; simp [parseEscape]
  rw [if_neg h5]
  by_cases h6 : c = '\x0c'
  · subst h6; simp [parseEscape]
  rw [if_neg h6]
  by_cases h7 : c = '\r'
  · subst h7; simp [parseEscape]
  rw [if_neg h7]
  by_cases h8 : c.toNat < 65536
  · rw [if_pos h8]
    rw [parseEscape_u_single c.toNat h8 ((char_range c).imp id And.left) l]
    rw [Char.ofNat_toNat]
  · rw [if_neg h8]
    have hcv : c.toNat < 1114112 := by
      rcases char_range c with hr | hr
      · omega
      · omega
    have hq : (c.toNat - 65536) % 1024 < 1024 := Nat.mod_lt _ (by norm_num)
    rw [parseEscape_u_pair (55296 + (c.toNat - 65536) / 1024) (56320 + (c.toNat - 65536) % 1024)
      (by omega) (by omega) (by omega) (by omega) l]
    have hc2 : 65536 + (55296 + (c.toNat - 65536) / 1024 - 55296) * 1024 + (56320 + (c.toNat - 65536) % 1024 - 56320) = c.toNat := by
      omega
    rw [hc2, Char.ofNat_toNat]

/-- Consuming one serialized character of a string literal body advances
the parser by exactly that character. -/
theorem parseStrBody_escChar (c : Char) (l : List Char) (acc : String) (fuel : Nat) :
    parseStrBody (fuel + 1) (escChar c ++ l) acc = parseStrBody fuel l (acc.push c) := by
  unfold escChar
  split
  · rename_i hplain
    obtain ⟨hge, hlt, hq, hb⟩ := hplain
    simp only [List.singleton_append, parseStrBody]
    rw [if_neg hq, if_neg hb, if_neg (show ¬ c.toNat < 32 by omega)]
  · simp only [List.cons_append, parseStrBody]
    rw [if_neg (show ¬ ('\\' : Char) = '"' by decide)]
    simp only [if_true]
    rw [parseEscape_escTail]

/-- Pushing a character then appending a string materializes the same
character list as appending the consed list. -/
theorem string_push_append (acc : String) (c : Char) (cs : List Char) :
    acc.push c ++ String.mk cs = acc ++ String.mk (c :: cs) := by
  show String.mk ((acc.data ++ [c]) ++ cs) = String.mk (acc.data ++ c :: cs)
  simp

/-- String literal bodies produced by the serializer parse back to the
original characters at any sufficient fuel. -/
theorem parseStrBody_escList (cs : List Char) (rest : List Char) (acc : String) (fuel : Nat)
    (hf : cs.length + 1 ≤ fuel) :
    parseStrBody fuel (escList cs ++ '"' :: rest) acc
      = some (acc ++ String.mk cs, rest) := by
  induction cs generalizing acc fuel with
  | nil =>
    obtain ⟨f, rfl⟩ : ∃ f, fuel = f + 1 := ⟨fuel - 1, by omega⟩
    simp only [escList, List.nil_append, parseStrBody]
    norm_num
    show acc = acc ++ ""
    simp
  | cons c cs ih =>
    obtain ⟨f, rfl⟩ : ∃ f, fuel = f + 1 := ⟨fuel - 1, by omega⟩
    show parseStrBody (f + 1) ((escChar c ++ escList cs) ++ '"' :: rest) acc = _
    rw [List.append_assoc, parseStrBody_escChar]
    have hle : cs.length + 1 ≤ f := by
      simp only [List.length_cons] at hf
      omega
    rw [ih (acc.push c) f hle]
    rw [string_push_append]

theorem skipWs_cons (c : Char) (l : List Char) (h : isWs c = false) :
    skipWs (c :: l) = c :: l := by
  simp [skipWs, h]

theorem skipWs_space (l : List Char) : skipWs (' ' :: l) = skipWs l := by
  simp [skipWs, isWs]

theorem parseValue_skip (fuel : Nat) (i : List Char) :
    parseValue fuel (' ' :: i) = parseValue fuel i := by
  cases fuel with
  | zero => rfl
  | succ f => simp only [parseValue, skipWs_space]

theorem parseMembers_skip (fuel : Nat) (i : List Char) :
    parseMembers fuel (' ' :: i) = parseMembers fuel i := by
  cases fuel with
  | zero => rfl
  | succ f => simp only [parseMembers, skipWs_space]

theorem string_empty_mk_data (k : String) : "" ++ String.mk k.data = k := by
  show String.mk ([] ++ k.data) = k
  simp

theorem dumpsStr_shape (s : String) (X : List Char) :
    dumpsStr s ++ X = '"' :: (escList s.data ++ '"' :: X) := by
  simp [dumpsStr]

theorem parseValue_strVal (v : String) (tail : List Char) (fuel : Nat)
    (hf : v.data.length + 2 ≤ fuel) :
    parseValue fuel (dumpsStr v ++ tail) = some (Json.str v, tail) := by
  obtain ⟨f, rfl⟩ : ∃ f, fuel = f + 1 := ⟨fuel - 1, by omega⟩
  rw [dumpsStr_shape]
  simp only [parseValue]
  rw [skipWs_cons _ _ (by decide)]
  simp only [if_pos rfl]
  rw [parseStrBody_escList v.data tail "" f (by omega)]
  rw [string_empty_mk_data]
  rfl

theorem parseMembers_last_gen (k : String) (VI rest : List Char) (v : Json) (fuel : Nat)
    (hk : k.data.length + 2 ≤ fuel)
    (hv : parseValue (fuel - 1) VI = some (v, '\x7d' :: rest)) :
    parseMembers fuel (dumpsStr k ++ ':' :: VI) = some ([(k, v)], rest) := by
  obtain ⟨f, rfl⟩ : ∃ f, fuel = f + 1 := ⟨fuel - 1, by omega⟩
  rw [dumpsStr_shape]
  simp only [parseMembers]
  rw [skipWs_cons _ _ (by decide)]
  simp only [if_pos rfl]
  rw [parseStrBody_escList k.data (':' :: VI) "" f (by omega)]
  simp only [string_empty_mk_data]
  rw [skipWs_cons _ _ (by decide)]
  simp only [if_pos rfl]
  have hv2 : parseValue f VI = some (v, '\x7d' :: rest) := by
    simpa using hv
  rw [hv2]
  rfl

theorem parseMembers_cons_gen (k : String) (VI R2 rest : List Char) (v : Json)
    (kvs : List (String × Json)) (fuel : Nat)
    (hk : k.data.length + 2 ≤ fuel)
    (hv : parseValue (fuel - 1) VI = some (v, ',' :: R2))
    (hrec : parseMembers (fuel - 1) R2 = some (kvs, rest)) :
    parseMembers fuel (dumpsStr k ++ ':' :: VI) = some ((k, v) :: kvs, rest) := by
  obtain ⟨f, rfl⟩ : ∃ f, fuel = f + 1 := ⟨fuel - 1, by omega⟩
  rw [dumpsStr_shape]
  simp only [parseMembers]
  rw [skipWs_cons _ _ (by decide)]
  simp only [if_pos rfl]
  rw [parseStrBody_escList k.data (':' :: VI) "" f (by omega)]
  simp only [string_empty_mk_data]
  rw [skipWs_cons _ _ (by decide)]
  simp only [if_pos rfl]
  have hv2 : parseValue f VI = some (v, ',' :: R2) := by
    simpa using hv
  have hrec2 : parseMembers f R2 = some (kvs, rest) := by
    simpa using hrec
  rw [hv2]
  simp only [skipWs_cons _ _ (show isWs ',' = false by decide), if_pos rfl]
  simp [hrec2]

theorem parseValue_obj_gen (k1 : String) (X rest : List Char) (kvs : List (String × Json)) (fuel : Nat)
    (hf : 1 ≤ fuel)
    (hm : parseMembers (fuel - 1) (dumpsStr k1 ++ X) = some (kvs, rest)) :
    parseValue fuel ('\x7b' :: (dumpsStr k1 ++ X)) = some (Json.obj kvs, rest) := by
  obtain ⟨f, rfl⟩ : ∃ f, fuel = f + 1 := ⟨fuel - 1, by omega⟩
  have hm2 : parseMembers f ('"' :: (escList k1.data ++ '"' :: X)) = some (kvs, rest) := by
    rw [← dumpsStr_shape]
    simpa using hm
  rw [dumpsStr_shape]
  simp only [parseValue]
  rw [skipWs_cons _ _ (by decide)]
  simp only [skipWs_cons _ _ (show isWs '"' = false by decide)]
  simp [hm2]

theorem msgEnv_shape (u m : String) :
    dumpsVal (msgEnv u m) =
      '\x7b' :: (dumpsStr "type" ++ ':' :: (' ' :: (dumpsStr "message" ++ ',' :: (' ' :: (dumpsStr "data" ++ ':' :: (' ' :: ('\x7b' :: (dumpsStr "sender" ++ ':' :: (' ' :: (dumpsStr u ++ ',' :: (' ' :: (dumpsStr "message" ++ ':' :: (' ' :: (dumpsStr m ++ '\x7d' :: '\x7d' :: ([] : List Char))))))))))))))) := by
  simp [msgEnv, dumpsVal, dumpsMembersD, List.append_assoc]

theorem parseValue_msgEnv (u m : String) (fuel : Nat)
    (hf : u.data.length + m.data.length + 15 ≤ fuel) :
    parseValue fuel (dumpsVal (msgEnv u m)) = some (msgEnv u m, []) := by
  have hLt : ("type" : String).data.length = 4 := rfl
  have hLm : ("message" : String).data.length = 7 := rfl
  have hLd : ("data" : String).data.length = 4 := rfl
  have hLs : ("sender" : String).data.length = 6 := rfl
  have h6 : parseValue (fuel - 1 - 1 - 1 - 1 - 1 - 1)
      (' ' :: (dumpsStr m ++ '\x7d' :: '\x7d' :: ([] : List Char)))
      = some (Json.str m, '\x7d' :: '\x7d' :: []) := by
    rw [parseValue_skip]
    exact parseValue_strVal m ('\x7d' :: '\x7d' :: []) _ (by omega)
  have h5 : parseMembers (fuel - 1 - 1 - 1 - 1 - 1)
      (' ' :: (dumpsStr "message" ++ ':' :: (' ' :: (dumpsStr m ++ '\x7d' :: '\x7d' :: ([] : List Char)))))
      = some ([("message", Json.str m)], ['\x7d']) := by
    rw [parseMembers_skip]
    exact parseMembers_last_gen "message" _ _ _ _ (by omega) h6
  have h4 : parseValue (fuel - 1 - 1 - 1 - 1 - 1)
      (' ' :: (dumpsStr u ++ ',' :: (' ' :: (dumpsStr "message" ++ ':' :: (' ' :: (dumpsStr m ++ '\x7d' :: '\x7d' :: ([] : List Char)))))))
      = some (Json.str u, ',' :: (' ' :: (dumpsStr "message" ++ ':' :: (' ' :: (dumpsStr m ++ '\x7d' :: '\x7d' :: []))))) := by
    rw [parseValue_skip]
    exact parseValue_strVal u _ _ (by omega)
  have h3 : parseMembers (fuel - 1 - 1 - 1 - 1)
      (dumpsStr "sender" ++ ':' :: (' ' :: (dumpsStr u ++ ',' :: (' ' :: (dumpsStr "message" ++ ':' :: (' ' :: (dumpsStr m ++ '\x7d' :: '\x7d' :: ([] : List Char))))))))
      = some ([("sender", Json.str u), ("message", Json.str m)], ['\x7d']) := by
    exact parseMembers_cons_gen "sender" _ _ _ _ _ _ (by omega) h4 h5
  have h2 : parseValue (fuel - 1 - 1 - 1)
      (' ' :: ('\x7b' :: (dumpsStr "sender" ++ ':' :: (' ' :: (dumpsStr u ++ ',' :: (' ' :: (dumpsStr "message" ++ ':' :: (' ' :: (dumpsStr m ++ '\x7d' :: '\x7d' :: ([] : List Char))))))))))
      = some (Json.obj [("sender", Json.str u), ("message", Json.str m)], '\x7d' :: []) := by
    rw [parseValue_skip]
    exact parseValue_obj_gen "sender" _ _ _ _ (by omega) h3
  have h1 : parseMembers (fuel - 1 - 1)
      (' ' :: (dumpsStr "data" ++ ':' :: (' ' :: ('\x7b' :: (dumpsStr "sender" ++ ':' :: (' ' :: (dumpsStr u ++ ',' :: (' ' :: (dumpsStr "message" ++ ':' :: (' ' :: (dumpsStr m ++ '\x7d' :: '\x7d' :: ([] : List Char))))))))))))
      = some ([("data", Json.obj [("sender", Json.str u), ("message", Json.str m)])], []) := by
    rw [parseMembers_skip]
    exact parseMembers_last_gen "data" _ _ _ _ (by omega) h2
  have h0v : parseValue (fuel - 1 - 1)
      (' ' :: (dumpsStr "message" ++ ',' :: (' ' :: (dumpsStr "data" ++ ':' :: (' ' :: ('\x7b' :: (dumpsStr "sender" ++ ':' :: (' ' :: (dumpsStr u ++ ',' :: (' ' :: (dumpsStr "message" ++ ':' :: (' ' :: (dumpsStr m ++ '\x7d' :: '\x7d' :: ([] : List Char))))))))))))))
      = some (Json.str "message", ',' :: (' ' :: (dumpsStr "data" ++ ':' :: (' ' :: ('\x7b' :: (dumpsStr "sender" ++ ':' :: (' ' :: (dumpsStr u ++ ',' :: (' ' :: (dumpsStr "message" ++ ':' :: (' ' :: (dumpsStr m ++ '\x7d' :: '\x7d' :: [])))))))))))) := by
    rw [parseValue_skip]
    exact parseValue_strVal "message" _ _ (by omega)
  have h0 : parseMembers (fuel - 1)
      (dumpsStr "type" ++ ':' :: (' ' :: (dumpsStr "message" ++ ',' :: (' ' :: (dumpsStr "data" ++ ':' :: (' ' :: ('\x7b' :: (dumpsStr "sender" ++ ':' :: (' ' :: (dumpsStr u ++ ',' :: (' ' :: (dumpsStr "message" ++ ':' :: (' ' :: (dumpsStr m ++ '\x7d' :: '\x7d' :: ([] : List Char)))))))))))))))
      = some ([("type", Json.str "message"), ("data", Json.obj [("sender", Json.str u), ("message", Json.str m)])], []) := by
    exact parseMembers_cons_gen "type" _ _ _ _ _ _ (by omega) h0v h1
  rw [msgEnv_shape]
  exact parseValue_obj_gen "type" _ _ _ _ (by omega) h0

theorem escList_length_ge (cs : List Char) : cs.length ≤ (escList cs).length := by
  induction cs with
  | nil => simp [escList]
  | cons c cs ih =>
    have h1 : 1 ≤ (escChar c).length := by
      unfold escChar
      split
      · simp
      · simp
    simp only [escList, List.length_append, List.length_cons]
    omega

theorem dumps_msgEnv_length (u m : String) :
    u.data.length + m.data.length + 15 ≤ (dumps (msgEnv u m)).length + 1 := by
  have hd : (dumps (msgEnv u m)).length = (dumpsVal (msgEnv u m)).length := rfl
  have hu : u.data.length ≤ (escList u.data).length := escList_length_ge u.data
  have hm : m.data.length ≤ (escList m.data).length := escList_length_ge m.data
  have c1 : (escList ("type" : String).data).length = 4 := rfl
  have c2 : (escList ("message" : String).data).length = 7 := rfl
  have c3 : (escList ("data" : String).data).length = 4 := rfl
  have c4 : (escList ("sender" : String).data).length = 6 := rfl
  rw [hd, msgEnv_shape]
  simp only [dumpsStr, List.length_cons, List.length_append, c1, c2, c3, c4]
  omega

theorem loads_dumps_msgEnv (u m : String) :
    loads (dumps (msgEnv u m)) = some (msgEnv u m) := by
  unfold loads
  have hdata : (dumps (msgEnv u m)).data = dumpsVal (msgEnv u m) := rfl
  rw [hdata, parseValue_msgEnv u m _ (dumps_msgEnv_length u m)]
  rfl

theorem sendToAll_map_of_ok (sendOk : Conn → Bool) (cs : List Conn) (p : String)
    (h : ∀ c ∈ cs, sendOk c = true) :
    sendToAll sendOk cs p = (cs.map (fun c => (c, p)), none) := by
  induction cs with
  | nil => rfl
  | cons c cs ih =>
    have hc : sendOk c = true := h c (by simp)
    have ihh := ih (fun a ha => h a (by simp [ha]))
    simp [sendToAll, hc, ihh]

theorem sendToAll_abort (sendOk : Conn → Bool) (pre : List Conn) (c : Conn) (post : List Conn)
    (p : String) (hpre : ∀ a ∈ pre, sendOk a = true) (hc : sendOk c = false) :
    sendToAll sendOk (pre ++ c :: post) p
      = (pre.map (fun a => (a, p)), some "WebSocketClosedError") := by
  induction pre with
  | nil => simp [sendToAll, hc]
  | cons a pre ih =>
    have ha : sendOk a = true := hpre a (by simp)
    have ihh := ih (fun b hb => hpre b (by simp [hb]))
    simp [sendToAll, ha, ihh]

theorem mem_sadd (l : List String) (u : String) : u ∈ sadd l u := by
  unfold sadd
  split
  · assumption
  · simp

theorem mem_addClient (l : List Conn) (c : Conn) : c ∈ addClient l c := by
  unfold addClient
  split
  · assumption
  · simp

theorem not_mem_srem (l : List String) (u : String) : u ∉ srem l u := by
  simp [srem]

theorem mem_removeClient (l : List Conn) (c1 c2 : Conn) (h : c2 ∈ l) (hne : c2 ≠ c1) :
    c2 ∈ removeClient l c1 := by
  simp [removeClient, h, hne]

theorem not_mem_removeClient (l : List Conn) (c : Conn) : c ∉ removeClient l c := by
  simp [removeClient]

theorem on_close_state (sendOk : Conn → Bool) (st : ServerState) (c : Conn)
    (h : c ∈ st.clients) :
    (on_close sendOk st c).1 = ⟨removeClient st.clients c, srem st.presence c.username⟩ := by
  unfold on_close
  rw [if_pos h]

theorem on_close_missing (sendOk : Conn → Bool) (st : ServerState) (c : Conn)
    (h : c ∉ st.clients) :
    on_close sendOk st c = (st, [], some "KeyError") := by
  unfold on_close
  rw [if_neg h]

theorem openConn_spec (sendOk : Conn → Bool) (st : ServerState) (cid : Nat)
    (req : Option String) (uuid : String) (hok : ∀ c, sendOk c = true) :
    openConn sendOk st cid req uuid
      = (⟨addClient st.clients ⟨cid, assignUsername req uuid⟩, sadd st.presence (assignUsername req uuid)⟩,
         (addClient st.clients ⟨cid, assignUsername req uuid⟩).map
           (fun a => (a, rosterPayload (sadd st.presence (assignUsername req uuid))))
           ++ [(⟨cid, assignUsername req uuid⟩, welcomePayload (assignUsername req uuid))],
         none) := by
  simp only [openConn, update_clients_list]
  rw [sendToAll_map_of_ok _ _ _ (fun c _ => hok c)]
  simp [hok]

theorem roster_ne_welcome (p : List String) (u : String) :
    rosterPayload p ≠ welcomePayload u := by
  intro heq
  have hd := congrArg String.data heq
  have hA : escList ("type" : String).data = ['t', 'y', 'p', 'e'] := rfl
  have hB : escList ("clients" : String).data = ['c', 'l', 'i', 'e', 'n', 't', 's'] := rfl
  have hC : escList ("welcome" : String).data = ['w', 'e', 'l', 'c', 'o', 'm', 'e'] := rfl
  simp only [rosterPayload, welcomePayload, dumps, dumpsVal, dumpsMembersD, dumpsStr,
    hA, hB, hC, List.cons_append, List.append_assoc, List.nil_append,
    List.cons.injEq] at hd
  exact absurd hd.2.2.2.2.2.2.2.2.2.2.1 (by decide)

theorem string_user_prefix_ne_empty (x : String) : "User-" ++ x ≠ "" := by
  intro h
  have hd := congrArg String.data h
  have hshow : ("User-" ++ x).data = 'U' :: 's' :: 'e' :: 'r' :: '-' :: x.data := rfl
  rw [hshow] at hd
  simp at hd

/-- C1: every chat payload published via on_message is delivered by one
listener iteration, unchanged, to every connection in the local registry,
including the publisher, and an empty registry yields no sends. -/
theorem C1_bus_delivers_published_payload (u msg : String) (clients : List Conn)
    (channel payload : String) (hpub : (channel, payload) ∈ (on_message u msg).1) :
    redis_listener_step (fun _ => true) clients ⟨"message", payload⟩
      = (clients.map (fun c => (c, payload)), none) := by
  have hp : payload = dumps (msgEnv u msg) := by
    simp [on_message] at hpub
    exact hpub.2
  subst hp
  simp only [redis_listener_step, if_pos rfl]
  rw [loads_dumps_msgEnv u msg]
  show sendToAll (fun _ => true) clients (dumps (msgEnv u msg)) = _
  rw [sendToAll_map_of_ok _ _ _ (fun c _ => rfl)]

/-- Witness for C1 at a concrete publisher, payload and registry that
contains the publisher. -/
theorem C1_bus_delivers_published_payload_witness :
    redis_listener_step (fun _ => true) [⟨0, "alice"⟩]
        ⟨"message", dumps (msgEnv "alice" "hi")⟩
      = ([(⟨0, "alice"⟩, dumps (msgEnv "alice" "hi"))], none) :=
  C1_bus_delivers_published_payload "alice" "hi" [⟨0, "alice"⟩] "chat_channel"
    (dumps (msgEnv "alice" "hi")) (by simp [on_message])

/-- C2 counterexample: closing the same connection twice raises KeyError
from the Python set remove on the second call, so the claim that a second
Close produces no error fails on the code. -/
theorem C2_double_close_counterexample :
    (on_close (fun _ => true)
        (on_close (fun _ => true) ⟨[⟨0, "alice"⟩], ["alice"]⟩ ⟨0, "alice"⟩).1
        ⟨0, "alice"⟩).2.2 ≠ none := by
  decide

/-- C2 amended: invoking Close twice on the same connection raises
KeyError on the second call before any side effect, so the second call
changes neither the Connection Registry nor the Presence Set and performs
no send. -/
theorem C2_double_close_raises (sendOk1 sendOk2 : Conn → Bool) (st : ServerState) (c : Conn)
    (h : c ∈ st.clients) :
    on_close sendOk2 (on_close sendOk1 st c).1 c
      = ((on_close sendOk1 st c).1, [], some "KeyError") := by
  have h2 : c ∉ (on_close sendOk1 st c).1.clients := by
    rw [on_close_state sendOk1 st c h]
    exact not_mem_removeClient st.clients c
  exact on_close_missing sendOk2 _ c h2

/-- Witness for C2 amended at a concrete one-connection state. -/
theorem C2_double_close_raises_witness :
    on_close (fun _ => true)
        (on_close (fun _ => true) ⟨[⟨0, "alice"⟩], ["alice"]⟩ ⟨0, "alice"⟩).1
        ⟨0, "alice"⟩
      = ((on_close (fun _ => true) ⟨[⟨0, "alice"⟩], ["alice"]⟩ ⟨0, "alice"⟩).1,
         [], some "KeyError") :=
  C2_double_close_raises (fun _ => true) (fun _ => true) ⟨[⟨0, "alice"⟩], ["alice"]⟩
    ⟨0, "alice"⟩ (by decide)

/-- C3 counterexample: with two registered connections of which the first
refuses the write, the roster broadcast aborts with no recipient served,
and the listener loop terminates on the raised send error with no later
bus message processed, so the isolation claim fails on the code. -/
theorem C3_send_failure_counterexample :
    update_clients_list (fun c => c.id == 1) [⟨0, "a"⟩, ⟨1, "b"⟩] ["a", "b"]
        = ([], some "WebSocketClosedError")
    ∧ redis_listener_run (fun c => c.id == 1) [⟨0, "a"⟩, ⟨1, "b"⟩]
        [⟨"message", dumps (msgEnv "a" "hi")⟩, ⟨"message", dumps (msgEnv "a" "again")⟩]
        = ([], some "WebSocketClosedError") := by
  constructor
  · rfl
  · rfl

/-- C3 amended: a send failure during a broadcast aborts the sends to all
recipients not yet served, and an error raised inside one listener
iteration terminates the listener loop so that no later bus message is
processed. -/
theorem C3_send_failure_aborts :
    (∀ (sendOk : Conn → Bool) (pre : List Conn) (c : Conn) (post : List Conn) (p : String),
      (∀ a ∈ pre, sendOk a = true) → sendOk c = false →
      sendToAll sendOk (pre ++ c :: post) p
        = (pre.map (fun a => (a, p)), some "WebSocketClosedError"))
    ∧ (∀ (sendOk : Conn → Bool) (clients : List Conn) (m : BusMsg) (msgs : List BusMsg)
        (s : List (Conn × String)) (e : String),
      redis_listener_step sendOk clients m = (s, some e) →
      redis_listener_run sendOk clients (m :: msgs) = (s, some e)) := by
  constructor
  · exact sendToAll_abort
  · intro sendOk clients m msgs s e h
    simp [redis_listener_run, h]

/-- Witness for C3 amended: a concrete aborted broadcast and a concrete
terminated listener run. -/
theorem C3_send_failure_aborts_witness :
    sendToAll (fun c => c.id == 1) ([⟨1, "b"⟩] ++ ⟨0, "a"⟩ :: []) "x"
        = ([(⟨1, "b"⟩, "x")], some "WebSocketClosedError")
    ∧ redis_listener_run (fun _ => true) [⟨0, "a"⟩]
        [⟨"message", "not json"⟩, ⟨"message", "ignored"⟩]
        = ([], some "JSONDecodeError") := by
  constructor
  · exact C3_send_failure_aborts.1 (fun c => c.id == 1) [⟨1, "b"⟩] ⟨0, "a"⟩ [] "x"
      (by decide) (by decide)
  · exact C3_send_failure_aborts.2 (fun _ => true) [⟨0, "a"⟩] ⟨"message", "not json"⟩
      [⟨"message", "ignored"⟩] [] "JSONDecodeError" (by rfl)

/-- C4: Close unconditionally removes the closing connection username
from the Presence Set, even when a different open connection shares that
username and stays registered. -/
theorem C4_close_removes_shared_username (sendOk : Conn → Bool) (st : ServerState)
    (c1 c2 : Conn) (h1 : c1 ∈ st.clients) (h2 : c2 ∈ st.clients) (hne : c2 ≠ c1)
    (_hsame : c1.username = c2.username) :
    c1.username ∉ (on_close sendOk st c1).1.presence
    ∧ c2 ∈ (on_close sendOk st c1).1.clients := by
  rw [on_close_state sendOk st c1 h1]
  exact ⟨not_mem_srem _ _, mem_removeClient _ _ _ h2 hne⟩

/-- Witness for C4 at a concrete state with two connections that share
one username. -/
theorem C4_close_removes_shared_username_witness :
    "alice" ∉ (on_close (fun _ => true) ⟨[⟨0, "alice"⟩, ⟨1, "alice"⟩], ["alice"]⟩ ⟨0, "alice"⟩).1.presence
    ∧ (⟨1, "alice"⟩ : Conn) ∈ (on_close (fun _ => true) ⟨[⟨0, "alice"⟩, ⟨1, "alice"⟩], ["alice"]⟩ ⟨0, "alice"⟩).1.clients :=
  C4_close_removes_shared_username (fun _ => true) ⟨[⟨0, "alice"⟩, ⟨1, "alice"⟩], ["alice"]⟩
    ⟨0, "alice"⟩ ⟨1, "alice"⟩ (by decide) (by decide) (by decide) (by decide)

/-- C5: when every send succeeds, Open broadcasts to every connection of
the updated registry, including the newly opened one, a roster serialized
from the full presence set as read after the new username was added, so
the roster contains that username. -/
theorem C5_open_roster_broadcast (sendOk : Conn → Bool) (st : ServerState) (cid : Nat)
    (req : Option String) (uuid : String) (hok : ∀ c, sendOk c = true) :
    openConn sendOk st cid req uuid
      = (⟨addClient st.clients ⟨cid, assignUsername req uuid⟩,
          sadd st.presence (assignUsername req uuid)⟩,
         (addClient st.clients ⟨cid, assignUsername req uuid⟩).map
            (fun a => (a, rosterPayload (sadd st.presence (assignUsername req uuid))))
           ++ [(⟨cid, assignUsername req uuid⟩, welcomePayload (assignUsername req uuid))],
         none)
    ∧ assignUsername req uuid ∈ sadd st.presence (assignUsername req uuid)
    ∧ (⟨cid, assignUsername req uuid⟩ : Conn) ∈ addClient st.clients ⟨cid, assignUsername req uuid⟩ :=
  ⟨openConn_spec sendOk st cid req uuid hok,
   mem_sadd st.presence (assignUsername req uuid),
   mem_addClient st.clients ⟨cid, assignUsername req uuid⟩⟩

/-- Witness for C5 at a concrete open on a state with one other client. -/
theorem C5_open_roster_broadcast_witness :
    openConn (fun _ => true) ⟨[⟨0, "bob"⟩], ["bob"]⟩ 1 (some "alice") "xyz"
      = (⟨[⟨0, "bob"⟩, ⟨1, "alice"⟩], ["bob", "alice"]⟩,
         [(⟨0, "bob"⟩, rosterPayload ["bob", "alice"]),
          (⟨1, "alice"⟩, rosterPayload ["bob", "alice"]),
          (⟨1, "alice"⟩, welcomePayload "alice")],
         none)
    ∧ "alice" ∈ sadd ["bob"] "alice"
    ∧ (⟨1, "alice"⟩ : Conn) ∈ addClient [⟨0, "bob"⟩] ⟨1, "alice"⟩ := by
  have h := C5_open_roster_broadcast (fun _ => true) ⟨[⟨0, "bob"⟩], ["bob"]⟩ 1
    (some "alice") "xyz" (fun _ => rfl)
  exact ⟨h.1, h.2.1, h.2.2⟩

/-- C6: on_message publishes exactly one serialized envelope to the chat
topic, whose parse is the tagged chat envelope with the sender username
and the raw payload, and performs no direct local send. -/
theorem C6_on_message_publishes_envelope (u msg : String) :
    (on_message u msg).1 = [("chat_channel", dumps (msgEnv u msg))]
    ∧ (on_message u msg).2 = []
    ∧ loads (dumps (msgEnv u msg)) = some (msgEnv u msg) :=
  ⟨rfl, rfl, loads_dumps_msgEnv u msg⟩

/-- C7: an absent or empty requested username yields the generated name,
which is User- followed by exactly eight characters and is non-empty,
while a non-empty requested username is assigned verbatim. -/
theorem C7_username_assignment (req : Option String) (uuid : String)
    (h8 : 8 ≤ uuid.data.length) :
    ((req = none ∨ req = some "") →
        assignUsername req uuid = "User-" ++ String.mk (uuid.data.take 8)
        ∧ (String.mk (uuid.data.take 8)).length = 8
        ∧ assignUsername req uuid ≠ "")
    ∧ (∀ s, req = some s → s ≠ "" → assignUsername req uuid = s) := by
  constructor
  · intro hreq
    have hlen : (String.mk (uuid.data.take 8)).length = 8 := by
      show (uuid.data.take 8).length = 8
      rw [List.length_take]
      omega
    have hgen : assignUsername req uuid = "User-" ++ String.mk (uuid.data.take 8) := by
      rcases hreq with h | h
      · rw [h]; rfl
      · rw [h]; rfl
    refine ⟨hgen, hlen, ?_⟩
    rw [hgen]
    exact string_user_prefix_ne_empty _
  · intro s hs hne
    rw [hs]
    simp [assignUsername, hne]

/-- Witness for C7 at a concrete canonical uuid string, in both the
generated and the client-supplied cases. -/
theorem C7_username_assignment_witness :
    (assignUsername none "3fa85f64-5717-4562-b3fc-2c963f66afa6"
        = "User-" ++ String.mk ("3fa85f64-5717-4562-b3fc-2c963f66afa6".data.take 8)
      ∧ (String.mk ("3fa85f64-5717-4562-b3fc-2c963f66afa6".data.take 8)).length = 8
      ∧ assignUsername none "3fa85f64-5717-4562-b3fc-2c963f66afa6" ≠ "")
    ∧ assignUsername (some "alice") "3fa85f64-5717-4562-b3fc-2c963f66afa6" = "alice" := by
  have h := C7_username_assignment none "3fa85f64-5717-4562-b3fc-2c963f66afa6" (by decide)
  have h2 := C7_username_assignment (some "alice") "3fa85f64-5717-4562-b3fc-2c963f66afa6" (by decide)
  exact ⟨h.1 (Or.inl rfl), h2.2 "alice" rfl (by decide)⟩

/-- C8: when every send succeeds, the sends of Open contain exactly one
send of the welcome payload, addressed to the newly opened connection
only, and the welcome greeting contains the assigned username. -/
theorem C8_welcome_only_new_conn (sendOk : Conn → Bool) (st : ServerState) (cid : Nat)
    (req : Option String) (uuid : String) (hok : ∀ c, sendOk c = true) :
    (openConn sendOk st cid req uuid).2.1.filter
        (fun s => s.2 == welcomePayload (assignUsername req uuid))
      = [(⟨cid, assignUsername req uuid⟩, welcomePayload (assignUsername req uuid))]
    ∧ List.IsInfix (assignUsername req uuid).data (greeting (assignUsername req uuid)).data := by
  constructor
  · rw [openConn_spec sendOk st cid req uuid hok]
    show ((addClient st.clients ⟨cid, assignUsername req uuid⟩).map
        (fun a => (a, rosterPayload (sadd st.presence (assignUsername req uuid))))
        ++ [((⟨cid, assignUsername req uuid⟩ : Conn), welcomePayload (assignUsername req uuid))]).filter
        (fun s : Conn × String => s.2 == welcomePayload (assignUsername req uuid))
      = [((⟨cid, assignUsername req uuid⟩ : Conn), welcomePayload (assignUsername req uuid))]
    rw [List.filter_append]
    have h1 : ((addClient st.clients ⟨cid, assignUsername req uuid⟩).map
        (fun a => (a, rosterPayload (sadd st.presence (assignUsername req uuid))))).filter
        (fun s => s.2 == welcomePayload (assignUsername req uuid)) = [] := by
      rw [List.filter_eq_nil_iff]
      intro a ha
      rw [List.mem_map] at ha
      obtain ⟨b, hb, rfl⟩ := ha
      simp only [beq_iff_eq]
      exact roster_ne_welcome _ _
    rw [h1]
    simp
  · exact ⟨"Добро пожаловать в чат, ".data, ['!'], rfl⟩

/-- Witness for C8 at a concrete open. -/
theorem C8_welcome_only_new_conn_witness :
    (openConn (fun _ => true) ⟨[⟨0, "bob"⟩], ["bob"]⟩ 1 (some "alice") "xyz").2.1.filter
        (fun s => s.2 == welcomePayload "alice")
      = [(⟨1, "alice"⟩, welcomePayload "alice")]
    ∧ List.IsInfix ("alice" : String).data (greeting "alice").data := by
  have h := C8_welcome_only_new_conn (fun _ => true) ⟨[⟨0, "bob"⟩], ["bob"]⟩ 1
    (some "alice") "xyz" (fun _ => rfl)
  exact h

/-- C9: a chat topic payload that is not valid JSON makes the parse step
of the listener raise, terminating the loop with nothing delivered for it
or for any later bus message. -/
theorem C9_listener_crash_on_bad_json (sendOk : Conn → Bool) (clients : List Conn)
    (bad : BusMsg) (msgs : List BusMsg) (htype : bad.type = "message")
    (hbad : loads bad.data = none) :
    redis_listener_run sendOk clients (bad :: msgs) = ([], some "JSONDecodeError") := by
  simp [redis_listener_run, redis_listener_step, htype, hbad]

/-- Witness for C9 at a concrete malformed payload followed by a
well-formed message that is consequently never delivered. -/
theorem C9_listener_crash_on_bad_json_witness :
    redis_listener_run (fun _ => true) [⟨0, "alice"⟩]
        [⟨"message", "not json"⟩, ⟨"message", dumps (msgEnv "alice" "hi")⟩]
      = ([], some "JSONDecodeError") :=
  C9_listener_crash_on_bad_json (fun _ => true) [⟨0, "alice"⟩] ⟨"message", "not json"⟩
    [⟨"message", dumps (msgEnv "alice" "hi")⟩] rfl (by rfl)

/-- C10: the origin check accepts every origin, so no connection is ever
rejected on origin grounds. -/
theorem C10_check_origin_always_true (origin : String) : check_origin origin = true :=
  rfl
